import Mathlib

/-!
Verification development for the `RandomCopyPaste` 3D preprocessing layer
(`keras_cv/layers/preprocessing_3d/waymo/random_copy_paste.py`).

Tensors are shallowly embedded as nested lists of rationals (the layer's
float32 arithmetic is modelled exactly over `ℚ`):
 * a point / box is a `List ℚ` of features,
 * a frame is a `List` of points / boxes,
 * a rank-3 tensor is a `List` of frames, rank 4 a list of those.

Randomness (`random.uniform` followed by the int32 cast, and
`tf.random.shuffle`) is modelled by explicit parameters `numPaste : ℕ`
and `perm : List ℕ`.

The helpers `iou_3d` and `is_within_any_box3d` are imported by the layer
from modules that are not part of the sources under verification; they are
modelled from the specification (see their doc comments).
-/

namespace RandomCopyPaste

/-- A point or a box: its list of float features. -/
abbrev Row := List ℚ

/-- A frame: `[num rows, num features]`. -/
abbrev T2 := List Row

/-- A rank-3 tensor: `[frames, rows, features]`. -/
abbrev T3 := List T2

/-- A rank-4 tensor. -/
abbrev T4 := List T3

/-- `CENTER_XYZ_DXDYDZ_PHI.CLASS`: index of the class feature of a box. -/
def CLASS : ℕ := 7

/-- `tf.boolean_mask` along the leading axis with a rank-1 mask: keep the
rows whose mask entry is `true`. -/
def booleanMask {α : Type} : List Bool → List α → List α
  | true :: ms, x :: xs => x :: booleanMask ms xs
  | false :: ms, _ :: xs => booleanMask ms xs
  | _, _ => []

/-- `tf.gather` along the leading row axis (out-of-range indices modelled by
an empty row; `tf.random.shuffle` always supplies in-range indices). -/
def gatherD {β : Type} (idx : List ℕ) (rows : List (List β)) : List (List β) :=
  idx.map (fun i => rows.getD i [])

/-- Overlap length of the intervals `[c1 - d1/2, c1 + d1/2]` and
`[c2 - d2/2, c2 + d2/2]`, clamped at `0`. -/
def ovlp (c1 d1 c2 d2 : ℚ) : ℚ :=
  max 0 (min (c1 + d1 / 2) (c2 + d2 / 2) - max (c1 - d1 / 2) (c2 - d2 / 2))

/-- Intersection volume of two boxes in `CENTER_XYZ_DXDYDZ_PHI` layout
(features `0,1,2` the center, `3,4,5` the dimensions). -/
def interVol (a b : Row) : ℚ :=
  ovlp (a.getD 0 0) (a.getD 3 0) (b.getD 0 0) (b.getD 3 0) *
    (ovlp (a.getD 1 0) (a.getD 4 0) (b.getD 1 0) (b.getD 4 0) *
      ovlp (a.getD 2 0) (a.getD 5 0) (b.getD 2 0) (b.getD 5 0))

/-- Modelled from the spec: `iou_3d` (imported from `keras_cv.ops`, not in
the verified sources) computes the 3D intersection-over-union of two
7-DOF boxes.  The heading angle (feature 6) is not modelled: boxes are taken
axis aligned, and a box's volume is its self-intersection (so degenerate
dimensions clamp to zero).  A pair with non-positive union has IoU `0`. -/
def iou3d (a b : Row) : ℚ :=
  if interVol a a + interVol b b - interVol a b ≤ 0 then 0
  else interVol a b / (interVol a a + interVol b b - interVol a b)

/-- Modelled from the spec: `is_within_box3d` membership of a point
`[x, y, z]` in one 7-DOF box, axis aligned (heading not modelled):
each coordinate is within half the box dimension of the box center. -/
def isWithinBox3d (p : Row) (b : Row) : Bool :=
  decide (|p.getD 0 0 - b.getD 0 0| ≤ b.getD 3 0 / 2) &&
    (decide (|p.getD 1 0 - b.getD 1 0| ≤ b.getD 4 0 / 2) &&
      decide (|p.getD 2 0 - b.getD 2 0| ≤ b.getD 5 0 / 2))

/-- Modelled from the spec: `is_within_any_box3d` (imported from
`keras_cv.point_cloud`, not in the verified sources): a point is a member
when it lies within at least one of the boxes. -/
def isWithinAnyBox3d (p : Row) (boxes : T2) : Bool :=
  boxes.any (isWithinBox3d p)

/-- The three constructor arguments stored by `RandomCopyPaste.__init__`. -/
structure RCPConfig where
  label_index : Option Int
  min_paste_bounding_boxes : Int
  max_paste_bounding_boxes : Int
  deriving DecidableEq, Repr

/-- Python truthiness of the optional integer `label_index`:
`None` and `0` are falsy, every other integer is truthy. -/
def labelTruthy : Option Int → Bool
  | none => false
  | some l => decide (l ≠ 0)

/-- `RandomCopyPaste.__init__`: the validation checks, in source order,
and the stored configuration on success (a raised `ValueError` is the
`Except.error` case). -/
def initRandomCopyPaste (label_index : Option Int)
    (min_paste_bounding_boxes max_paste_bounding_boxes : Int) :
    Except String RCPConfig :=
  if labelTruthy label_index && decide (label_index.getD 0 < 0) then
    .error "label_index must be >=0."
  else if min_paste_bounding_boxes < 0 then
    .error "min_paste_bounding_boxes must be >=0."
  else if max_paste_bounding_boxes < 0 then
    .error "max_paste_bounding_boxes must be >=0."
  else if max_paste_bounding_boxes < min_paste_bounding_boxes then
    .error "max_paste_bounding_boxes must be >= min_paste_bounding_boxes."
  else
    .ok ⟨label_index, min_paste_bounding_boxes, max_paste_bounding_boxes⟩

/-- `RandomCopyPaste.get_config`: the stored arguments, unchanged. -/
def getConfig (c : RCPConfig) : Option Int × Int × Int :=
  (c.label_index, c.min_paste_bounding_boxes, c.max_paste_bounding_boxes)

/-- The class filter mask of `get_random_transformation`: computed from the
classes of the FIRST frame of `object_bounding_boxes`
(`object_bounding_boxes[0, :, CLASS] == label_index`). -/
def labelFilterMask (cfg : RCPConfig) (object_bounding_boxes : T3) : List Bool :=
  (object_bounding_boxes.headD []).map
    (fun b => decide (b.getD CLASS 0 = ((cfg.label_index.getD 0 : Int) : ℚ)))

/-- The optional class filter of `get_random_transformation`: when
`label_index` is truthy, both object tensors are filtered along axis 1 by
the first-frame class mask. -/
def grtFiltered (cfg : RCPConfig) (object_point_clouds : T4)
    (object_bounding_boxes : T3) : T4 × T3 :=
  if labelTruthy cfg.label_index then
    (object_point_clouds.map (booleanMask (labelFilterMask cfg object_bounding_boxes)),
      object_bounding_boxes.map (booleanMask (labelFilterMask cfg object_bounding_boxes)))
  else
    (object_point_clouds, object_bounding_boxes)

/-- `all_bounding_boxes` of `get_random_transformation`: first-frame
existing boxes concatenated with the first-frame compare boxes, first seven
features each. -/
def grtAllBoxes (bb0 cmp0 : T2) : T2 :=
  (bb0 ++ cmp0).map (List.take 7)

/-- One row sum of the lower-triangular (`tf.linalg.band_part(iou, -1, 0)`)
pairwise IoU matrix of `boxes`: the entries of row `j` at columns `i ≤ j`. -/
def rowSum (boxes : T2) (j : ℕ) : ℚ :=
  ∑ i ∈ Finset.range boxes.length,
    if i ≤ j then iou3d (boxes.getD j []) (boxes.getD i []) else 0

/-- The non-overlap retention mask of `get_random_transformation`: compare
box `c` is kept when its banded IoU row sum (over the first-frame existing
boxes and the earlier compare boxes, plus its self IoU) is at most `1`. -/
def grtKeep (bb0 cmp0 : T2) : List Bool :=
  (List.range cmp0.length).map
    (fun c => decide (rowSum (grtAllBoxes bb0 cmp0) (bb0.length + c) ≤ 1))

/-- `num_compare_bounding_boxes` of `get_random_transformation`: at most
five times `numPaste`, capped by the shuffled object axis size (read, as in
the source, off `object_point_clouds` after the filter and the shuffle). -/
def grtNumCompare (cfg : RCPConfig) (object_point_clouds : T4)
    (object_bounding_boxes : T3) (numPaste : ℕ) (perm : List ℕ) : ℕ :=
  min (numPaste * 5)
    (((grtFiltered cfg object_point_clouds object_bounding_boxes).1.map
      (gatherD perm)).headD []).length

/-- First frame of the compare slice of `object_point_clouds`
(filtered, shuffled, cut to `num_compare_bounding_boxes`). -/
def grtCmpOpc0 (cfg : RCPConfig) (object_point_clouds : T4)
    (object_bounding_boxes : T3) (numPaste : ℕ) (perm : List ℕ) : T3 :=
  ((((grtFiltered cfg object_point_clouds object_bounding_boxes).1.map
      (gatherD perm)).map
    (List.take (grtNumCompare cfg object_point_clouds object_bounding_boxes
      numPaste perm))).headD [])

/-- First frame of the compare slice of `object_bounding_boxes`
(filtered, shuffled, cut to `num_compare_bounding_boxes`). -/
def grtCmpObb0 (cfg : RCPConfig) (object_point_clouds : T4)
    (object_bounding_boxes : T3) (numPaste : ℕ) (perm : List ℕ) : T2 :=
  ((((grtFiltered cfg object_point_clouds object_bounding_boxes).2.map
      (gatherD perm)).map
    (List.take (grtNumCompare cfg object_point_clouds object_bounding_boxes
      numPaste perm))).headD [])

/-- `RandomCopyPaste.get_random_transformation` on a rank-3 scene.
`numPaste` models the truncated-int draw of `random.uniform`, `perm` models
`tf.random.shuffle` of `tf.range` over the filtered object axis.  The
pipeline is: optional class filter, shuffle, cut to the compare budget,
drop compare boxes whose banded first-frame IoU row sum exceeds `1`, cut to
`numPaste`.  Returns `(OBJECT_POINT_CLOUDS, OBJECT_BOUNDING_BOXES)`. -/
def getRandomTransformation (cfg : RCPConfig) (bounding_boxes : T3)
    (object_point_clouds : T4) (object_bounding_boxes : T3)
    (numPaste : ℕ) (perm : List ℕ) : T4 × T3 :=
  let numCompare :=
    grtNumCompare cfg object_point_clouds object_bounding_boxes numPaste perm
  let keep := grtKeep (bounding_boxes.headD [])
    (grtCmpObb0 cfg object_point_clouds object_bounding_boxes numPaste perm)
  (((((grtFiltered cfg object_point_clouds object_bounding_boxes).1.map
        (gatherD perm)).map (List.take numCompare)).map
      (booleanMask keep)).map (List.take numPaste),
    ((((grtFiltered cfg object_point_clouds object_bounding_boxes).2.map
        (gatherD perm)).map (List.take numCompare)).map
      (booleanMask keep)).map (List.take numPaste))

/-- Per-frame point merge of `augment_point_clouds_bounding_boxes`:
pasted object points with class feature (index 3) `> 0`, followed by the
existing points that lie outside every pasted box (membership on the first
three features against the first seven box features) and have class `> 0`. -/
def augFramePoints (pcF : T2) (opcF : T3) (obbF : T2) : T2 :=
  let inBox := pcF.map (fun p => isWithinAnyBox3d (p.take 3) (obbF.map (List.take 7)))
  let exMask := List.zipWith (fun m p => !m && decide (p.getD 3 0 > 0)) inBox pcF
  let existing := booleanMask exMask pcF
  let pasteMask := (opcF.map (fun obj => obj.map (fun p => decide (p.getD 3 0 > 0)))).flatten
  let paste := booleanMask pasteMask opcF.flatten
  paste ++ existing

/-- Per-frame box merge of `augment_point_clouds_bounding_boxes`:
pasted boxes with class feature `> 0`, followed by existing boxes with
class feature `> 0`. -/
def augFrameBoxes (bbF : T2) (obbF : T2) : T2 :=
  let existing := booleanMask (bbF.map (fun b => decide (b.getD CLASS 0 > 0))) bbF
  let paste := booleanMask (obbF.map (fun b => decide (b.getD CLASS 0 > 0))) obbF
  paste ++ existing

/-- `point_clouds_list` of `augment_point_clouds_bounding_boxes`: the
per-frame merged (ragged) point rows, one entry per input frame. -/
def pointCloudsList (point_clouds : T3) (opc : T4) (obb : T3) : T3 :=
  (List.range point_clouds.length).map
    (fun f => augFramePoints (point_clouds.getD f []) (opc.getD f []) (obb.getD f []))

/-- `bounding_boxes_list` of `augment_point_clouds_bounding_boxes`: the
per-frame merged (ragged) box rows; the loop runs over the frames of
`point_clouds`. -/
def boundingBoxesList (numFrames : ℕ) (bounding_boxes : T3) (obb : T3) : T3 :=
  (List.range numFrames).map
    (fun f => augFrameBoxes (bounding_boxes.getD f []) (obb.getD f []))

/-- One row of `RaggedTensor.to_tensor(shape=...)`: truncated to `k`
features and zero padded. -/
def padRow (k : ℕ) (r : Row) : Row :=
  r.take k ++ List.replicate (k - r.length) 0

/-- One frame of `RaggedTensor.to_tensor(shape=...)`: truncated to `p`
rows, padded with zero rows, each row forced to `k` features. -/
def padFrame (p k : ℕ) (fr : T2) : T2 :=
  (fr.take p ++ List.replicate (p - fr.length) []).map (padRow k)

/-- `RaggedTensor.to_tensor(shape=[f, p, k])`: every dimension truncated or
zero padded to the given static shape. -/
def toTensor3 (f p k : ℕ) (t : T3) : T3 :=
  (t.take f ++ List.replicate (f - t.length) []).map (padFrame p k)

/-- `get_shape().as_list()` of a rank-3 tensor (rectangular input read off
its first components). -/
def shape3 (t : T3) : ℕ × ℕ × ℕ :=
  (t.length, (t.headD []).length, ((t.headD []).headD []).length)

/-- `RandomCopyPaste.augment_point_clouds_bounding_boxes`: merge the
transformation's pasted objects `(opc, obb)` into the scene and reassemble
the ragged per-frame lists into dense tensors of the input static shapes. -/
def augmentPointCloudsBoundingBoxes (point_clouds bounding_boxes : T3)
    (opc : T4) (obb : T3) : T3 × T3 :=
  let s1 := shape3 point_clouds
  let s2 := shape3 bounding_boxes
  (toTensor3 s1.1 s1.2.1 s1.2.2 (pointCloudsList point_clouds opc obb),
    toTensor3 s2.1 s2.2.1 s2.2.2
      (boundingBoxesList point_clouds.length bounding_boxes obb))

/-- `RandomCopyPaste._augment` on one rank-3 scene: draw the transformation,
then augment; returns the new `(point_clouds, bounding_boxes)`. -/
def augmentScene (cfg : RCPConfig) (rand : ℕ × List ℕ)
    (point_clouds bounding_boxes : T3) (opc : T4) (obb : T3) : T3 × T3 :=
  let tr := getRandomTransformation cfg bounding_boxes opc obb rand.1 rand.2
  augmentPointCloudsBoundingBoxes point_clouds bounding_boxes tr.1 tr.2

/-- Tensors of a given rank (`Tn 0` a scalar, `Tn (n+1)` a list of rank-`n`
tensors); `Tn 3` is definitionally `T3`, `Tn 4` is `T4`. -/
def Tn : ℕ → Type
  | 0 => ℚ
  | n + 1 => List (Tn n)

/-- The zero-size tensor of each rank. -/
def defaultTn : (n : ℕ) → Tn n
  | 0 => (0 : ℚ)
  | _ + 1 => []

/-- A tensor whose rank is data, as `call` receives its inputs. -/
structure AnyTensor where
  rank : ℕ
  data : Tn rank

/-- View an `AnyTensor` at an expected rank (the zero-size tensor when the
rank differs; `call` only inspects the ranks of `point_clouds` and
`bounding_boxes`, so the object inputs are read at the implied rank). -/
def asT (n : ℕ) (t : AnyTensor) : Tn n :=
  if h : t.rank = n then h ▸ t.data else defaultTn n

/-- `RandomCopyPaste.call`: rank dispatch.  Both tensors of rank 3 augments
the single scene; both of rank 4 augments every batch element independently
(`rands i` models the random draws of batch element `i`) and restacks along
the batch axis; any other rank combination raises `ValueError`
(`Except.error`). -/
def call (cfg : RCPConfig) (rands : ℕ → ℕ × List ℕ)
    (point_clouds bounding_boxes object_point_clouds object_bounding_boxes :
      AnyTensor) : Except String (AnyTensor × AnyTensor) :=
  if point_clouds.rank = 3 ∧ bounding_boxes.rank = 3 then
    let r := augmentScene cfg (rands 0) (asT 3 point_clouds)
      (asT 3 bounding_boxes) (asT 4 object_point_clouds)
      (asT 3 object_bounding_boxes)
    .ok (⟨3, r.1⟩, ⟨3, r.2⟩)
  else if point_clouds.rank = 4 ∧ bounding_boxes.rank = 4 then
    let pc4 : T4 := asT 4 point_clouds
    let bb4 : T4 := asT 4 bounding_boxes
    let opc5 : List T4 := asT 5 object_point_clouds
    let obb4 : T4 := asT 4 object_bounding_boxes
    let results := (List.range pc4.length).map (fun i =>
      augmentScene cfg (rands i) (pc4.getD i []) (bb4.getD i [])
        (opc5.getD i []) (obb4.getD i []))
    .ok (⟨4, results.map Prod.fst⟩, ⟨4, results.map Prod.snd⟩)
  else
    .error "Point clouds augmentation layers are expecting inputs point clouds and bounding boxes to be rank 3D or 4D tensors."

/-! ### Helper lemmas about `booleanMask` -/

theorem booleanMask_nil {α : Type} (ms : List Bool) :
    booleanMask ms ([] : List α) = [] := by
  cases ms with
  | nil => rfl
  | cons b ms => cases b <;> rfl

theorem booleanMask_nil_mask {α : Type} (xs : List α) :
    booleanMask [] xs = [] := by
  cases xs <;> rfl

theorem booleanMask_sublist {α : Type} (ms : List Bool) (xs : List α) :
    List.Sublist (booleanMask ms xs) xs := by
  induction xs generalizing ms with
  | nil => rw [booleanMask_nil]
  | cons x xs ih =>
    cases ms with
    | nil => rw [booleanMask_nil_mask]; exact (List.nil_sublist xs).cons x
    | cons b ms =>
      cases b with
      | true => exact (ih ms).cons₂ x
      | false => exact (ih ms).cons x

theorem booleanMask_mem_getD {α : Type} (d : α) :
    ∀ (ms : List Bool) (xs : List α) (b : α), b ∈ booleanMask ms xs →
      ∃ j, j < xs.length ∧ ms.getD j false = true ∧ xs.getD j d = b := by
  intro ms xs
  induction xs generalizing ms with
  | nil => intro b hb; rw [booleanMask_nil] at hb; cases hb
  | cons x xs ih =>
    intro b hb
    cases ms with
    | nil => rw [booleanMask_nil_mask] at hb; cases hb
    | cons m ms =>
      cases m with
      | true =>
        rcases List.mem_cons.mp hb with h | h
        · exact ⟨0, Nat.succ_pos _, rfl, h.symm⟩
        · obtain ⟨j, hj, hm, hx⟩ := ih ms b h
          exact ⟨j + 1, Nat.succ_lt_succ hj, hm, hx⟩
      | false =>
        obtain ⟨j, hj, hm, hx⟩ := ih ms b hb
        exact ⟨j + 1, Nat.succ_lt_succ hj, hm, hx⟩

theorem booleanMask_pairwise {α : Type} (d : α) (R : α → α → Prop) :
    ∀ (ms : List Bool) (xs : List α),
      (∀ j, j < xs.length → ms.getD j false = true →
        ∀ i, i < j → R (xs.getD j d) (xs.getD i d)) →
      (booleanMask ms xs).Pairwise (fun a b => R b a) := by
  intro ms xs
  induction xs generalizing ms with
  | nil => intro _; rw [booleanMask_nil]; exact List.Pairwise.nil
  | cons x xs ih =>
    intro H
    cases ms with
    | nil => rw [booleanMask_nil_mask]; exact List.Pairwise.nil
    | cons m ms =>
      have Htail : ∀ j, j < xs.length → ms.getD j false = true →
          ∀ i, i < j → R (xs.getD j d) (xs.getD i d) := by
        intro j hj hm i hi
        have hh := H (j + 1) (Nat.succ_lt_succ hj)
          (by rwa [List.getD_cons_succ]) (i + 1) (Nat.succ_lt_succ hi)
        rwa [List.getD_cons_succ, List.getD_cons_succ] at hh
      cases m with
      | false => exact ih ms Htail
      | true =>
        refine List.Pairwise.cons ?_ (ih ms Htail)
        intro y hy
        obtain ⟨j, hj, hm, hx⟩ := booleanMask_mem_getD d ms xs y hy
        have hh := H (j + 1) (Nat.succ_lt_succ hj)
          (by rwa [List.getD_cons_succ]) 0 (Nat.succ_pos j)
        rw [List.getD_cons_succ, List.getD_cons_zero, hx] at hh
        exact hh

theorem booleanMask_map_self {α : Type} (q : α → Bool) :
    ∀ xs : List α, booleanMask (xs.map q) xs = xs.filter q := by
  intro xs
  induction xs with
  | nil => rfl
  | cons x xs ih =>
    cases hq : q x <;> simp [booleanMask, List.filter, hq, ih]

theorem booleanMask_length_eq {α β : Type} :
    ∀ (ms : List Bool) (xs : List α) (ys : List β), xs.length = ys.length →
      (booleanMask ms xs).length = (booleanMask ms ys).length := by
  intro ms
  induction ms with
  | nil => intro xs ys _; rw [booleanMask_nil_mask, booleanMask_nil_mask]; rfl
  | cons m ms ih =>
    intro xs ys h
    cases xs with
    | nil => cases ys with
      | nil => rw [booleanMask_nil, booleanMask_nil]; rfl
      | cons y ys => cases h
    | cons x xs =>
      cases ys with
      | nil => cases h
      | cons y ys =>
        have h' : xs.length = ys.length := Nat.succ_injective h
        cases m with
        | true =>
          show (x :: booleanMask ms xs).length = (y :: booleanMask ms ys).length
          simp [ih xs ys h']
        | false => exact ih xs ys h'

theorem booleanMask_length_le {α : Type} (ms : List Bool) (xs : List α) :
    (booleanMask ms xs).length ≤ xs.length :=
  (booleanMask_sublist ms xs).length_le

/-! ### Helper lemmas about the modelled 3D IoU -/

theorem ovlp_nonneg (c1 d1 c2 d2 : ℚ) : 0 ≤ ovlp c1 d1 c2 d2 :=
  le_max_left 0 _

theorem ovlp_comm (c1 d1 c2 d2 : ℚ) : ovlp c1 d1 c2 d2 = ovlp c2 d2 c1 d1 := by
  unfold ovlp
  rw [min_comm, max_comm (c1 - d1 / 2)]

theorem ovlp_self (c d : ℚ) : ovlp c d c d = max 0 d := by
  unfold ovlp
  rw [min_self, max_self]
  have h : c + d / 2 - (c - d / 2) = d := by ring
  rw [h]

theorem ovlp_le_left (c1 d1 c2 d2 : ℚ) :
    ovlp c1 d1 c2 d2 ≤ ovlp c1 d1 c1 d1 := by
  rw [ovlp_self]
  unfold ovlp
  have h : min (c1 + d1 / 2) (c2 + d2 / 2) - max (c1 - d1 / 2) (c2 - d2 / 2) ≤ d1 := by
    have h1 : min (c1 + d1 / 2) (c2 + d2 / 2) ≤ c1 + d1 / 2 := min_le_left _ _
    have h2 : c1 - d1 / 2 ≤ max (c1 - d1 / 2) (c2 - d2 / 2) := le_max_left _ _
    linarith
  exact max_le_max le_rfl h

theorem interVol_nonneg (a b : Row) : 0 ≤ interVol a b :=
  mul_nonneg (ovlp_nonneg _ _ _ _) (mul_nonneg (ovlp_nonneg _ _ _ _) (ovlp_nonneg _ _ _ _))

theorem interVol_comm (a b : Row) : interVol a b = interVol b a := by
  unfold interVol
  rw [ovlp_comm (a.getD 0 0), ovlp_comm (a.getD 1 0), ovlp_comm (a.getD 2 0)]

theorem interVol_le_self (a b : Row) : interVol a b ≤ interVol a a := by
  unfold interVol
  have m1 := ovlp_le_left (a.getD 0 0) (a.getD 3 0) (b.getD 0 0) (b.getD 3 0)
  have m2 := ovlp_le_left (a.getD 1 0) (a.getD 4 0) (b.getD 1 0) (b.getD 4 0)
  have m3 := ovlp_le_left (a.getD 2 0) (a.getD 5 0) (b.getD 2 0) (b.getD 5 0)
  have n1 := ovlp_nonneg (a.getD 0 0) (a.getD 3 0) (b.getD 0 0) (b.getD 3 0)
  have n2 := ovlp_nonneg (a.getD 1 0) (a.getD 4 0) (b.getD 1 0) (b.getD 4 0)
  have n3 := ovlp_nonneg (a.getD 2 0) (a.getD 5 0) (b.getD 2 0) (b.getD 5 0)
  have n2' := ovlp_nonneg (a.getD 1 0) (a.getD 4 0) (a.getD 1 0) (a.getD 4 0)
  have n3' := ovlp_nonneg (a.getD 2 0) (a.getD 5 0) (a.getD 2 0) (a.getD 5 0)
  have n1' := ovlp_nonneg (a.getD 0 0) (a.getD 3 0) (a.getD 0 0) (a.getD 3 0)
  exact mul_le_mul m1 (mul_le_mul m2 m3 n3 n2') (mul_nonneg n2 n3) n1'

theorem interVol_zero_of_self (a b : Row) (h : interVol a a = 0) :
    interVol a b = 0 :=
  le_antisymm (h ▸ interVol_le_self a b) (interVol_nonneg a b)

theorem iou3d_nonneg (a b : Row) : 0 ≤ iou3d a b := by
  unfold iou3d
  split
  · exact le_rfl
  · next h =>
    exact div_nonneg (interVol_nonneg a b) (le_of_lt (lt_of_not_le h))

theorem iou3d_comm (a b : Row) : iou3d a b = iou3d b a := by
  unfold iou3d
  rw [interVol_comm a b, add_comm (interVol a a)]

theorem iou3d_self_dichotomy (a : Row) :
    iou3d a a = 1 ∨ ∀ b, iou3d a b = 0 := by
  rcases le_or_lt (interVol a a) 0 with h | h
  · right
    intro b
    have hz : interVol a a = 0 := le_antisymm h (interVol_nonneg a a)
    have hab : interVol a b = 0 := interVol_zero_of_self a b hz
    unfold iou3d
    rw [hab]
    split
    · rfl
    · exact zero_div _
  · left
    unfold iou3d
    rw [show interVol a a + interVol a a - interVol a a = interVol a a from by ring]
    rw [if_neg (not_le.mpr h)]
    exact div_self (ne_of_gt h)

theorem rowSum_le_one_zero (bs : T2) (j : ℕ) (hj : j < bs.length)
    (h : rowSum bs j ≤ 1) (i : ℕ) (hi : i < j) :
    iou3d (bs.getD j []) (bs.getD i []) = 0 := by
  rcases iou3d_self_dichotomy (bs.getD j []) with hself | hall
  · set f : ℕ → ℚ :=
      fun i => if i ≤ j then iou3d (bs.getD j []) (bs.getD i []) else 0 with hf
    have hnn : ∀ k, 0 ≤ f k := by
      intro k
      simp only [hf]
      split
      · exact iou3d_nonneg _ _
      · exact le_rfl
    have hjmem : j ∈ Finset.range bs.length := Finset.mem_range.mpr hj
    have himem : i ∈ Finset.range bs.length :=
      Finset.mem_range.mpr (lt_trans hi hj)
    have hfj : f j = 1 := by simp only [hf, if_pos (le_refl j), hself]
    have hsum : rowSum bs j = ∑ k ∈ Finset.range bs.length, f k := rfl
    have key : f j + f i ≤ ∑ k ∈ Finset.range bs.length, f k := by
      rw [← Finset.add_sum_erase _ f hjmem]
      refine add_le_add_left ?_ (f j)
      exact Finset.single_le_sum (fun k _ => hnn k)
        (Finset.mem_erase.mpr ⟨Nat.ne_of_lt hi, himem⟩)
    have hle : f i ≤ 0 := by
      rw [hsum] at h
      rw [hfj] at key
      linarith
    have hzero : f i = 0 := le_antisymm hle (hnn i)
    simp only [hf, if_pos (le_of_lt hi)] at hzero
    exact hzero
  · exact hall _

/-! ### First-frame reduction of `get_random_transformation` -/

theorem headD_map_nil {α β : Type} (f : List α → List β) (l : List (List α))
    (hf : f [] = []) : (l.map f).headD [] = f (l.headD []) := by
  cases l with
  | nil => simp [hf]
  | cons x l => rfl

theorem grt_fst_frame0 (cfg : RCPConfig) (bb : T3) (opc : T4) (obb : T3)
    (numPaste : ℕ) (perm : List ℕ) :
    ((getRandomTransformation cfg bb opc obb numPaste perm).1).headD [] =
      List.take numPaste (booleanMask
        (grtKeep (bb.headD []) (grtCmpObb0 cfg opc obb numPaste perm))
        (grtCmpOpc0 cfg opc obb numPaste perm)) := by
  unfold getRandomTransformation
  rw [headD_map_nil _ _ (List.take_nil), headD_map_nil _ _ (booleanMask_nil _)]
  rfl

theorem grt_snd_frame0 (cfg : RCPConfig) (bb : T3) (opc : T4) (obb : T3)
    (numPaste : ℕ) (perm : List ℕ) :
    ((getRandomTransformation cfg bb opc obb numPaste perm).2).headD [] =
      List.take numPaste (booleanMask
        (grtKeep (bb.headD []) (grtCmpObb0 cfg opc obb numPaste perm))
        (grtCmpObb0 cfg opc obb numPaste perm)) := by
  unfold getRandomTransformation
  rw [headD_map_nil _ _ (List.take_nil), headD_map_nil _ _ (booleanMask_nil _)]
  rfl

/-! ### Zero-IoU retention of the keep mask -/

theorem grtAllBoxes_length (bb0 cmp0 : T2) :
    (grtAllBoxes bb0 cmp0).length = bb0.length + cmp0.length := by
  unfold grtAllBoxes
  rw [List.length_map, List.length_append]

theorem grtAllBoxes_getD_left (bb0 cmp0 : T2) (i : ℕ) (hi : i < bb0.length) :
    (grtAllBoxes bb0 cmp0).getD i [] = (bb0.getD i []).take 7 := by
  unfold grtAllBoxes
  have hlen : i < ((bb0 ++ cmp0).map (List.take 7)).length := by
    rw [List.length_map, List.length_append]
    omega
  rw [List.getD_eq_getElem _ _ hlen, List.getElem_map,
    List.getElem_append_left hi, List.getD_eq_getElem _ _ hi]

theorem grtAllBoxes_getD_right (bb0 cmp0 : T2) (c : ℕ) (hc : c < cmp0.length) :
    (grtAllBoxes bb0 cmp0).getD (bb0.length + c) [] =
      (cmp0.getD c []).take 7 := by
  unfold grtAllBoxes
  have hlen : bb0.length + c < ((bb0 ++ cmp0).map (List.take 7)).length := by
    rw [List.length_map, List.length_append]
    omega
  rw [List.getD_eq_getElem _ _ hlen, List.getElem_map,
    List.getElem_append_right (Nat.le_add_right _ _)]
  have hidx : bb0.length + c - bb0.length = c := by omega
  simp only [hidx]
  rw [List.getD_eq_getElem _ _ hc]

theorem grtKeep_getD (bb0 cmp0 : T2) (c : ℕ) (hc : c < cmp0.length) :
    (grtKeep bb0 cmp0).getD c false =
      decide (rowSum (grtAllBoxes bb0 cmp0) (bb0.length + c) ≤ 1) := by
  unfold grtKeep
  have hlen : c < ((List.range cmp0.length).map
      (fun c => decide (rowSum (grtAllBoxes bb0 cmp0) (bb0.length + c) ≤ 1))).length := by
    rw [List.length_map, List.length_range]
    exact hc
  rw [List.getD_eq_getElem _ _ hlen, List.getElem_map, List.getElem_range]

theorem grt_retained_zero_iou_existing (bb0 cmp0 : T2) (n : ℕ) (b : Row)
    (hb : b ∈ List.take n (booleanMask (grtKeep bb0 cmp0) cmp0)) :
    ∀ e ∈ bb0, iou3d (b.take 7) (e.take 7) = 0 := by
  intro e he
  have hb' : b ∈ booleanMask (grtKeep bb0 cmp0) cmp0 := List.mem_of_mem_take hb
  obtain ⟨c, hc, hkeep, hbc⟩ := booleanMask_mem_getD ([] : Row) _ _ b hb'
  rw [grtKeep_getD bb0 cmp0 c hc] at hkeep
  have hrow : rowSum (grtAllBoxes bb0 cmp0) (bb0.length + c) ≤ 1 :=
    of_decide_eq_true hkeep
  obtain ⟨i, hi, hie⟩ := List.mem_iff_getElem.mp he
  have hjlen : bb0.length + c < (grtAllBoxes bb0 cmp0).length := by
    rw [grtAllBoxes_length]
    omega
  have hz := rowSum_le_one_zero _ _ hjlen hrow i (by omega)
  rw [grtAllBoxes_getD_right bb0 cmp0 c hc,
    grtAllBoxes_getD_left bb0 cmp0 i hi, hbc,
    List.getD_eq_getElem _ _ hi, hie] at hz
  exact hz

theorem grt_retained_pairwise_zero_iou (bb0 cmp0 : T2) (n : ℕ) :
    (List.take n (booleanMask (grtKeep bb0 cmp0) cmp0)).Pairwise
      (fun a b => iou3d (a.take 7) (b.take 7) = 0 ∧
        iou3d (b.take 7) (a.take 7) = 0) := by
  have base := booleanMask_pairwise ([] : Row)
    (fun u v => iou3d (u.take 7) (v.take 7) = 0 ∧
      iou3d (v.take 7) (u.take 7) = 0)
    (grtKeep bb0 cmp0) cmp0 ?_
  · exact List.Pairwise.sublist (List.take_sublist n _)
      (base.imp fun h => ⟨h.2, h.1⟩)
  · intro j hj hkeep i hij
    rw [grtKeep_getD bb0 cmp0 j hj] at hkeep
    have hrow : rowSum (grtAllBoxes bb0 cmp0) (bb0.length + j) ≤ 1 :=
      of_decide_eq_true hkeep
    have hjlen : bb0.length + j < (grtAllBoxes bb0 cmp0).length := by
      rw [grtAllBoxes_length]
      omega
    have hz := rowSum_le_one_zero _ _ hjlen hrow (bb0.length + i) (by omega)
    rw [grtAllBoxes_getD_right bb0 cmp0 j hj,
      grtAllBoxes_getD_right bb0 cmp0 i (Nat.lt_trans hij hj)] at hz
    exact ⟨hz, by rw [iou3d_comm]; exact hz⟩

/-! ### The per-frame merge as filters -/

theorem augFramePoints_eq (pcF : T2) (opcF : T3) (obbF : T2) :
    augFramePoints pcF opcF obbF =
      opcF.flatten.filter (fun p => decide (p.getD 3 0 > 0)) ++
        pcF.filter (fun p =>
          !isWithinAnyBox3d (p.take 3) (obbF.map (List.take 7)) &&
            decide (p.getD 3 0 > 0)) := by
  unfold augFramePoints
  simp only []
  rw [List.zipWith_map_left, List.zipWith_same, ← List.map_flatten,
    booleanMask_map_self, booleanMask_map_self]

theorem augFrameBoxes_eq (bbF obbF : T2) :
    augFrameBoxes bbF obbF =
      obbF.filter (fun b => decide (b.getD CLASS 0 > 0)) ++
        bbF.filter (fun b => decide (b.getD CLASS 0 > 0)) := by
  unfold augFrameBoxes
  rw [booleanMask_map_self, booleanMask_map_self]

/-! ### Helper lemmas for counting and class filtering -/

theorem gatherD_length {β : Type} (perm : List ℕ) (rows : List (List β)) :
    (gatherD perm rows).length = perm.length :=
  List.length_map _ _

theorem gatherD_mem {β : Type} (perm : List ℕ) (rows : List (List β))
    (b : List β) (h : b ∈ gatherD perm rows) :
    ∃ i ∈ perm, rows.getD i [] = b := by
  simpa [gatherD] using List.mem_map.mp h

theorem grtFiltered_fst_length (cfg : RCPConfig) (opc : T4) (obb : T3) :
    (grtFiltered cfg opc obb).1.length = opc.length := by
  unfold grtFiltered
  split <;> simp

theorem grtFiltered_snd_length (cfg : RCPConfig) (opc : T4) (obb : T3) :
    (grtFiltered cfg opc obb).2.length = obb.length := by
  unfold grtFiltered
  split <;> simp

theorem grtFiltered_frame0_length_eq (cfg : RCPConfig) (opc : T4) (obb : T3)
    (hlen : (opc.headD []).length = (obb.headD []).length) :
    ((grtFiltered cfg opc obb).1.headD []).length =
      ((grtFiltered cfg opc obb).2.headD []).length := by
  unfold grtFiltered
  split
  · rw [headD_map_nil _ _ (booleanMask_nil _), headD_map_nil _ _ (booleanMask_nil _)]
    exact booleanMask_length_eq _ _ _ hlen
  · exact hlen

theorem grtFiltered_snd_headD_truthy (cfg : RCPConfig) (opc : T4) (obb : T3)
    (ht : labelTruthy cfg.label_index = true) :
    (grtFiltered cfg opc obb).2.headD [] =
      (obb.headD []).filter
        (fun b => decide (b.getD CLASS 0 = ((cfg.label_index.getD 0 : Int) : ℚ))) := by
  unfold grtFiltered
  rw [if_pos ht]
  rw [headD_map_nil _ _ (booleanMask_nil _)]
  unfold labelFilterMask
  exact booleanMask_map_self _ _

theorem grtCmp_length_eq (cfg : RCPConfig) (opc : T4) (obb : T3)
    (numPaste : ℕ) (perm : List ℕ) (hfr : opc.length = obb.length) :
    (grtCmpOpc0 cfg opc obb numPaste perm).length =
      (grtCmpObb0 cfg opc obb numPaste perm).length := by
  unfold grtCmpOpc0 grtCmpObb0
  have h1 := grtFiltered_fst_length cfg opc obb
  have h2 := grtFiltered_snd_length cfg opc obb
  cases hX : (grtFiltered cfg opc obb).1 with
  | nil =>
    cases hY : (grtFiltered cfg opc obb).2 with
    | nil => rfl
    | cons y ys =>
      rw [hX] at h1
      rw [hY] at h2
      simp at h1 h2
      omega
  | cons x xs =>
    cases hY : (grtFiltered cfg opc obb).2 with
    | nil =>
      rw [hX] at h1
      rw [hY] at h2
      simp at h1 h2
      omega
    | cons y ys =>
      simp only [List.map_cons, List.headD_cons]
      rw [List.length_take, List.length_take, gatherD_length, gatherD_length]

theorem grtCmpObb0_length_le (cfg : RCPConfig) (opc : T4) (obb : T3)
    (numPaste : ℕ) (perm : List ℕ) :
    (grtCmpObb0 cfg opc obb numPaste perm).length ≤ perm.length := by
  unfold grtCmpObb0
  cases hY : (grtFiltered cfg opc obb).2 with
  | nil => simp
  | cons y ys =>
    simp only [List.map_cons, List.headD_cons]
    rw [List.length_take, gatherD_length]
    omega

/-! ### Shape of the dense reassembly -/

theorem padRow_length (k : ℕ) (r : Row) : (padRow k r).length = k := by
  unfold padRow
  rw [List.length_append, List.length_take, List.length_replicate]
  omega

theorem padFrame_shape (p k : ℕ) (fr : T2) :
    (padFrame p k fr).length = p ∧ ∀ r ∈ padFrame p k fr, r.length = k := by
  constructor
  · unfold padFrame
    rw [List.length_map, List.length_append, List.length_take,
      List.length_replicate]
    omega
  · intro r hr
    unfold padFrame at hr
    obtain ⟨r0, _, rfl⟩ := List.mem_map.mp hr
    exact padRow_length k r0

theorem toTensor3_shape (f p k : ℕ) (t : T3) :
    (toTensor3 f p k t).length = f ∧
      ∀ fr ∈ toTensor3 f p k t, fr.length = p ∧ ∀ r ∈ fr, r.length = k := by
  constructor
  · unfold toTensor3
    rw [List.length_map, List.length_append, List.length_take,
      List.length_replicate]
    omega
  · intro fr hfr
    unfold toTensor3 at hfr
    obtain ⟨fr0, _, rfl⟩ := List.mem_map.mp hfr
    exact padFrame_shape p k fr0

/-! ### Membership of compare boxes in the filtered objects -/

theorem grtCmpObb0_mem_filtered (cfg : RCPConfig) (opc : T4) (obb : T3)
    (numPaste : ℕ) (perm : List ℕ)
    (hlen : (opc.headD []).length = (obb.headD []).length)
    (hidx : ∀ i ∈ perm, i < ((grtFiltered cfg opc obb).1.headD []).length)
    (b : Row) (hb : b ∈ grtCmpObb0 cfg opc obb numPaste perm) :
    b ∈ (grtFiltered cfg opc obb).2.headD [] := by
  unfold grtCmpObb0 at hb
  cases hY : (grtFiltered cfg opc obb).2 with
  | nil =>
    rw [hY] at hb
    simp at hb
  | cons y ys =>
    rw [hY] at hb
    simp only [List.map_cons, List.headD_cons] at hb
    have hb' : b ∈ gatherD perm y := List.mem_of_mem_take hb
    obtain ⟨i, hip, hig⟩ := gatherD_mem perm y b hb'
    have hiy : i < y.length := by
      have hx := hidx i hip
      rw [grtFiltered_frame0_length_eq cfg opc obb hlen, hY] at hx
      simpa using hx
    rw [List.headD_cons, ← hig, List.getD_eq_getElem _ _ hiy]
    exact List.getElem_mem _

/-! ## The claims -/

/-- C1 (amended): in the FIRST frame, every pasted bounding box retained by
`get_random_transformation` has zero 3D IoU with every bounding box already
present in the first frame of the input `bounding_boxes`, and pairwise zero
3D IoU with every other first-frame retained pasted box.  (The source
computes the overlap mask from the first frame only and applies it to all
frames, so the guarantee cannot extend to the other frames; see the
counterexample.) -/
theorem grt_first_frame_pasted_boxes_zero_iou (cfg : RCPConfig) (bb : T3)
    (opc : T4) (obb : T3) (numPaste : ℕ) (perm : List ℕ) :
    (∀ b ∈ ((getRandomTransformation cfg bb opc obb numPaste perm).2).headD [],
      ∀ e ∈ bb.headD [], iou3d (b.take 7) (e.take 7) = 0) ∧
    (((getRandomTransformation cfg bb opc obb numPaste perm).2).headD []).Pairwise
      (fun a b => iou3d (a.take 7) (b.take 7) = 0 ∧
        iou3d (b.take 7) (a.take 7) = 0) := by
  rw [grt_snd_frame0]
  exact ⟨fun b hb => grt_retained_zero_iou_existing _ _ _ b hb,
    grt_retained_pairwise_zero_iou _ _ _⟩

/-- C1 counterexample: a two-frame input on which a retained pasted box of
the SECOND frame (the transformation keeps the box index, whose second-frame
geometry is `[20,0,0,2,2,2,0,1]`) has 3D IoU `1`, not `0`, with the box
`[20,0,0,2,2,2,0,1]` already present in the first frame of the input
`bounding_boxes` — the overlap check only consults first-frame geometry, so
the claim fails as stated over all retained boxes. -/
theorem grt_multiframe_pasted_box_overlap_cx :
    ((getRandomTransformation ⟨none, 0, 10⟩ [[[20,0,0,2,2,2,0,1]], []]
        [[[]], [[]]]
        [[[0,0,0,2,2,2,0,1]], [[20,0,0,2,2,2,0,1]]] 1 [0]).2).getD 1 [] =
      [[20,0,0,2,2,2,0,1]] ∧
    [20,0,0,2,2,2,0,1] ∈ ([[[20,0,0,2,2,2,0,1]], []] : T3).headD [] ∧
    iou3d (List.take 7 [20,0,0,2,2,2,0,1]) (List.take 7 [20,0,0,2,2,2,0,1]) = 1 ∧
    (1 : ℚ) ≠ 0 := by
  have hA : iou3d ([0,0,0,2,2,2,0] : Row) [20,0,0,2,2,2,0] = 0 := by
    norm_num [iou3d, interVol, ovlp, List.getD_cons_zero, List.getD_cons_succ]
  have hB : iou3d ([0,0,0,2,2,2,0] : Row) [0,0,0,2,2,2,0] = 1 := by
    norm_num [iou3d, interVol, ovlp, List.getD_cons_zero, List.getD_cons_succ]
  have hrow : rowSum ([[20,0,0,2,2,2,0], [0,0,0,2,2,2,0]] : T2) 1 ≤ 1 := by
    unfold rowSum
    rw [show ([[20,0,0,2,2,2,0], [0,0,0,2,2,2,0]] : T2).length = 2 from rfl,
      Finset.sum_range_succ, Finset.sum_range_succ, Finset.sum_range_zero]
    norm_num [List.getD_cons_zero, List.getD_cons_succ, hA, hB]
  have hkeep : grtKeep (List.headD [[[20,0,0,2,2,2,0,1]], []] [])
      (grtCmpObb0 ⟨none, 0, 10⟩ [[[]], [[]]]
        [[[0,0,0,2,2,2,0,1]], [[20,0,0,2,2,2,0,1]]] 1 [0]) = [true] := by
    show grtKeep ([[20,0,0,2,2,2,0,1]] : T2) ([[0,0,0,2,2,2,0,1]] : T2) = [true]
    unfold grtKeep
    rw [show List.range ([[0,0,0,2,2,2,0,1]] : T2).length = [0] from rfl]
    simp only [List.map_cons, List.map_nil]
    rw [show grtAllBoxes ([[20,0,0,2,2,2,0,1]] : T2) [[0,0,0,2,2,2,0,1]] =
      [[20,0,0,2,2,2,0], [0,0,0,2,2,2,0]] from rfl]
    rw [show ([[20,0,0,2,2,2,0,1]] : T2).length + 0 = 1 from rfl]
    rw [decide_eq_true hrow]
  refine ⟨?_, List.mem_cons_self _ _, ?_, by norm_num⟩
  · unfold getRandomTransformation
    simp only []
    rw [hkeep]
    rfl
  · norm_num [iou3d, interVol, ovlp, List.getD_cons_zero, List.getD_cons_succ]

/-- C2: for every frame of a rank-3 input, the merged per-frame point rows
that `augment_point_clouds_bounding_boxes` assembles (its
`point_clouds_list`, from which the dense output is reassembled) are
exactly the pasted object points whose class feature (index 3) is `> 0`,
followed by exactly those existing input points that lie outside every
pasted bounding box (membership on the first three features against the
first seven box features) and have class feature `> 0`. -/
theorem augment_points_per_frame_merge (pc : T3) (opc : T4) (obb : T3) :
    pointCloudsList pc opc obb = (List.range pc.length).map (fun f =>
      (opc.getD f []).flatten.filter (fun p => decide (p.getD 3 0 > 0)) ++
        (pc.getD f []).filter (fun p =>
          !isWithinAnyBox3d (p.take 3) ((obb.getD f []).map (List.take 7)) &&
            decide (p.getD 3 0 > 0))) := by
  unfold pointCloudsList
  simp only [augFramePoints_eq]

/-- C3 (amended): for every frame of a rank-3 input, the output
bounding-box tensor of `augment_point_clouds_bounding_boxes` is the pasted
boxes with class feature `> 0` followed by the existing input boxes with
class feature `> 0`, in that order, TRUNCATED to the static shape of the
input `bounding_boxes` tensor and with any remaining rows zero
(`RaggedTensor.to_tensor(shape=...)` both pads and truncates). -/
theorem augment_boxes_merge_pad_truncate (pc bb : T3) (opc : T4) (obb : T3) :
    (augmentPointCloudsBoundingBoxes pc bb opc obb).2 =
      toTensor3 bb.length (bb.headD []).length ((bb.headD []).headD []).length
        ((List.range pc.length).map (fun f =>
          (obb.getD f []).filter (fun b => decide (b.getD CLASS 0 > 0)) ++
            (bb.getD f []).filter (fun b => decide (b.getD CLASS 0 > 0)))) := by
  unfold augmentPointCloudsBoundingBoxes shape3 boundingBoxesList
  simp only [augFrameBoxes_eq]

/-- C3 counterexample: the input has one box slot holding the valid
(class `1`) box `[20,0,0,2,2,2,0,1]` and one valid pasted box; the output
holds only the pasted box — the valid existing box is truncated away, so
the output does not consist of the pasted boxes followed by the existing
valid boxes. -/
theorem augment_boxes_truncation_cx :
    (augmentPointCloudsBoundingBoxes [[]] [[[20,0,0,2,2,2,0,1]]] [[]]
        [[[0,0,0,2,2,2,0,1]]]).2 = [[[0,0,0,2,2,2,0,1]]] ∧
    [20,0,0,2,2,2,0,1] ∈ ([[[20,0,0,2,2,2,0,1]]] : T3).headD [] ∧
    ([20,0,0,2,2,2,0,1] : Row).getD CLASS 0 > 0 ∧
    [20,0,0,2,2,2,0,1] ∉
      ((augmentPointCloudsBoundingBoxes [[]] [[[20,0,0,2,2,2,0,1]]] [[]]
        [[[0,0,0,2,2,2,0,1]]]).2.getD 0 []) :=
  ⟨rfl, List.mem_cons_self _ _, by decide, by decide⟩

/-- C4: the dense tensors reassembled by
`augment_point_clouds_bounding_boxes` have exactly the static shapes of the
input `point_clouds` and `bounding_boxes` tensors, for every frame and
every number of pasted objects. -/
theorem augment_output_shapes_match_input (pc bb : T3) (opc : T4) (obb : T3) :
    ((augmentPointCloudsBoundingBoxes pc bb opc obb).1.length = pc.length ∧
      (∀ fr ∈ (augmentPointCloudsBoundingBoxes pc bb opc obb).1,
        fr.length = (pc.headD []).length ∧
        ∀ r ∈ fr, r.length = ((pc.headD []).headD []).length)) ∧
    ((augmentPointCloudsBoundingBoxes pc bb opc obb).2.length = bb.length ∧
      (∀ fr ∈ (augmentPointCloudsBoundingBoxes pc bb opc obb).2,
        fr.length = (bb.headD []).length ∧
        ∀ r ∈ fr, r.length = ((bb.headD []).headD []).length)) := by
  unfold augmentPointCloudsBoundingBoxes shape3
  simp only []
  exact ⟨toTensor3_shape _ _ _ _, toTensor3_shape _ _ _ _⟩

/-- C5: `RandomCopyPaste.__init__` raises `ValueError` if and only if
`min_paste_bounding_boxes < 0`, or `max_paste_bounding_boxes < 0`, or
`max_paste_bounding_boxes < min_paste_bounding_boxes`, or `label_index` is
truthy (some nonzero integer) and negative; in particular `label_index`
`None` and `0` are accepted, and on acceptance the three arguments are
stored unchanged as reported by `get_config`. -/
theorem init_validation_iff (li : Option Int) (m M : Int) :
    ((∃ e, initRandomCopyPaste li m M = .error e) ↔
      (m < 0 ∨ M < 0 ∨ M < m ∨ ∃ l, li = some l ∧ l ≠ 0 ∧ l < 0)) ∧
    ((∃ c, initRandomCopyPaste li m M = .ok c ∧ getConfig c = (li, m, M)) ↔
      ¬(m < 0 ∨ M < 0 ∨ M < m ∨ ∃ l, li = some l ∧ l ≠ 0 ∧ l < 0)) := by
  unfold initRandomCopyPaste getConfig labelTruthy
  cases li with
  | none =>
    simp only [Bool.false_and, Bool.false_eq_true, if_false]
    split_ifs with h1 h2 h3 <;> simp_all
  | some l =>
    by_cases hl : l ≠ 0 ∧ l < 0
    · rw [if_pos (by simp [hl.1, hl.2])]
      simp [hl.1, hl.2]
    · rw [if_neg (by simpa using fun a b => hl ⟨a, b⟩)]
      split_ifs with h1 h2 h3 <;> simp_all

/-- C6 (amended): for every run of `get_random_transformation` (with the
random draws modelled by `numPaste ≤ max_paste_bounding_boxes` and `perm` a
shuffle of the filtered object axis), the transformation holds as many
object point-cloud entries as object bounding-box entries, that number is
at most `max_paste_bounding_boxes` and at most the number of candidate
objects remaining after the optional class filter, and — in the FIRST
frame — every retained object bounding box has class feature equal to a
truthy `label_index`.  (The class filter mask is computed from the first
frame only; see the counterexample for the other frames.) -/
theorem grt_counts_and_first_frame_classes (cfg : RCPConfig) (bb : T3)
    (opc : T4) (obb : T3) (numPaste : ℕ) (perm : List ℕ)
    (hfr : opc.length = obb.length)
    (hlen : (opc.headD []).length = (obb.headD []).length)
    (hperm : perm.length = ((grtFiltered cfg opc obb).1.headD []).length)
    (hidx : ∀ i ∈ perm, i < ((grtFiltered cfg opc obb).1.headD []).length)
    (hmax : (numPaste : Int) ≤ cfg.max_paste_bounding_boxes) :
    (((getRandomTransformation cfg bb opc obb numPaste perm).1.headD []).length =
      ((getRandomTransformation cfg bb opc obb numPaste perm).2.headD []).length) ∧
    ((((getRandomTransformation cfg bb opc obb numPaste perm).2.headD []).length : Int) ≤
      cfg.max_paste_bounding_boxes) ∧
    (((getRandomTransformation cfg bb opc obb numPaste perm).2.headD []).length ≤
      ((grtFiltered cfg opc obb).2.headD []).length) ∧
    (∀ l : Int, cfg.label_index = some l → l ≠ 0 →
      ∀ b ∈ (getRandomTransformation cfg bb opc obb numPaste perm).2.headD [],
        b.getD CLASS 0 = (l : ℚ)) := by
  rw [grt_fst_frame0, grt_snd_frame0]
  refine ⟨?_, ?_, ?_, ?_⟩
  · rw [List.length_take, List.length_take,
      booleanMask_length_eq _ _ _ (grtCmp_length_eq cfg opc obb numPaste perm hfr)]
  · have h1 : (List.take numPaste (booleanMask
        (grtKeep (bb.headD []) (grtCmpObb0 cfg opc obb numPaste perm))
        (grtCmpObb0 cfg opc obb numPaste perm))).length ≤ numPaste := by
      rw [List.length_take]
      exact min_le_left _ _
    exact le_trans (by exact_mod_cast h1) hmax
  · have s1 : (List.take numPaste (booleanMask
        (grtKeep (bb.headD []) (grtCmpObb0 cfg opc obb numPaste perm))
        (grtCmpObb0 cfg opc obb numPaste perm))).length ≤
        (booleanMask (grtKeep (bb.headD []) (grtCmpObb0 cfg opc obb numPaste perm))
          (grtCmpObb0 cfg opc obb numPaste perm)).length := by
      rw [List.length_take]
      exact min_le_right _ _
    have s2 := booleanMask_length_le
      (grtKeep (bb.headD []) (grtCmpObb0 cfg opc obb numPaste perm))
      (grtCmpObb0 cfg opc obb numPaste perm)
    have s3 := grtCmpObb0_length_le cfg opc obb numPaste perm
    have s5 := grtFiltered_frame0_length_eq cfg opc obb hlen
    omega
  · intro l hsome hl b hb
    have ht : labelTruthy cfg.label_index = true := by
      rw [hsome]
      simp [labelTruthy, hl]
    have hb2 : b ∈ grtCmpObb0 cfg opc obb numPaste perm :=
      (booleanMask_sublist _ _).subset (List.mem_of_mem_take hb)
    have hmem := grtCmpObb0_mem_filtered cfg opc obb numPaste perm hlen hidx b hb2
    rw [grtFiltered_snd_headD_truthy cfg opc obb ht] at hmem
    have hp := List.of_mem_filter hmem
    have hq := of_decide_eq_true hp
    rw [hsome] at hq
    simpa using hq

/-- C6 witness: the hypotheses hold and the conclusion follows at the
concrete run with no objects, `numPaste = 0` and the empty shuffle. -/
theorem grt_counts_and_first_frame_classes_witness :
    (([[]] : T4).length = ([[]] : T3).length) ∧
    ((([[]] : T4).headD []).length = (([[]] : T3).headD []).length) ∧
    (([] : List ℕ).length =
      ((grtFiltered ⟨none, 0, 10⟩ [[]] [[]]).1.headD []).length) ∧
    (∀ i ∈ ([] : List ℕ),
      i < ((grtFiltered ⟨none, 0, 10⟩ [[]] [[]]).1.headD []).length) ∧
    (((0 : ℕ) : Int) ≤ (RCPConfig.mk none 0 10).max_paste_bounding_boxes) ∧
    ((((getRandomTransformation ⟨none, 0, 10⟩ [[]] [[]] [[]] 0 []).1.headD []).length =
      ((getRandomTransformation ⟨none, 0, 10⟩ [[]] [[]] [[]] 0 []).2.headD []).length) ∧
    ((((getRandomTransformation ⟨none, 0, 10⟩ [[]] [[]] [[]] 0 []).2.headD []).length : Int) ≤
      (RCPConfig.mk none 0 10).max_paste_bounding_boxes) ∧
    (((getRandomTransformation ⟨none, 0, 10⟩ [[]] [[]] [[]] 0 []).2.headD []).length ≤
      ((grtFiltered ⟨none, 0, 10⟩ [[]] [[]]).2.headD []).length) ∧
    (∀ l : Int, (RCPConfig.mk none 0 10).label_index = some l → l ≠ 0 →
      ∀ b ∈ (getRandomTransformation ⟨none, 0, 10⟩ [[]] [[]] [[]] 0 []).2.headD [],
        b.getD CLASS 0 = (l : ℚ))) :=
  ⟨rfl, rfl, rfl, by simp, by decide,
    grt_counts_and_first_frame_classes ⟨none, 0, 10⟩ [[]] [[]] [[]] 0 []
      rfl rfl rfl (by simp) (by decide)⟩

/-- C6 counterexample: with `label_index = 1`, a two-frame input whose
first-frame object box has class `1` but whose second-frame box at the same
index has class `2`: the box is retained (the filter mask only reads the
first frame), so a retained object bounding box has class feature `2`, not
the label index `1`. -/
theorem grt_label_filter_first_frame_cx :
    ((getRandomTransformation ⟨some 1, 0, 10⟩ [[], []] [[[]], [[]]]
        [[[0,0,0,2,2,2,0,1]], [[0,0,0,2,2,2,0,2]]] 1 [0]).2).getD 1 [] =
      [[0,0,0,2,2,2,0,2]] ∧
    ([0,0,0,2,2,2,0,2] : Row).getD CLASS 0 = 2 ∧ ((2 : ℚ) ≠ 1) := by
  have hself : iou3d ([0,0,0,2,2,2,0] : Row) [0,0,0,2,2,2,0] = 1 := by
    norm_num [iou3d, interVol, ovlp, List.getD_cons_zero, List.getD_cons_succ]
  have hrow : rowSum ([[0,0,0,2,2,2,0]] : T2) 0 ≤ 1 := by
    unfold rowSum
    rw [show ([[0,0,0,2,2,2,0]] : T2).length = 1 from rfl,
      Finset.sum_range_succ, Finset.sum_range_zero]
    norm_num [List.getD_cons_zero, hself]
  have hkeep : grtKeep (List.headD ([[], []] : T3) [])
      (grtCmpObb0 ⟨some 1, 0, 10⟩ [[[]], [[]]]
        [[[0,0,0,2,2,2,0,1]], [[0,0,0,2,2,2,0,2]]] 1 [0]) = [true] := by
    show grtKeep ([] : T2) [[0,0,0,2,2,2,0,1]] = [true]
    unfold grtKeep
    rw [show List.range ([[0,0,0,2,2,2,0,1]] : T2).length = [0] from rfl]
    simp only [List.map_cons, List.map_nil]
    rw [show grtAllBoxes ([] : T2) [[0,0,0,2,2,2,0,1]] =
      [[0,0,0,2,2,2,0]] from rfl]
    rw [show ([] : T2).length + 0 = 0 from rfl]
    rw [decide_eq_true hrow]
  refine ⟨?_, by decide, by decide⟩
  unfold getRandomTransformation
  simp only []
  rw [hkeep]
  rfl

/-- C7: `RandomCopyPaste.call` raises `ValueError` exactly when
`point_clouds` and `bounding_boxes` are not both rank 3 or both rank 4;
for rank-3 inputs it augments the single scene, and for rank-4 inputs it
augments each batch element independently and restacks the results along
the batch axis. -/
theorem call_rank_dispatch (cfg : RCPConfig) (rands : ℕ → ℕ × List ℕ)
    (pc bb opc obb : AnyTensor) :
    ((∃ e, call cfg rands pc bb opc obb = .error e) ↔
      ¬((pc.rank = 3 ∧ bb.rank = 3) ∨ (pc.rank = 4 ∧ bb.rank = 4))) ∧
    (pc.rank = 3 ∧ bb.rank = 3 →
      call cfg rands pc bb opc obb = .ok
        (⟨3, (augmentScene cfg (rands 0) (asT 3 pc) (asT 3 bb) (asT 4 opc)
            (asT 3 obb)).1⟩,
          ⟨3, (augmentScene cfg (rands 0) (asT 3 pc) (asT 3 bb) (asT 4 opc)
            (asT 3 obb)).2⟩)) ∧
    (pc.rank = 4 ∧ bb.rank = 4 →
      call cfg rands pc bb opc obb = .ok
        (⟨4, ((List.range (asT 4 pc).length).map (fun i =>
            augmentScene cfg (rands i) ((asT 4 pc).getD i [])
              ((asT 4 bb).getD i []) ((asT 5 opc).getD i [])
              ((asT 4 obb).getD i []))).map Prod.fst⟩,
          ⟨4, ((List.range (asT 4 pc).length).map (fun i =>
            augmentScene cfg (rands i) ((asT 4 pc).getD i [])
              ((asT 4 bb).getD i []) ((asT 5 opc).getD i [])
              ((asT 4 obb).getD i []))).map Prod.snd⟩)) := by
  unfold call
  by_cases h3 : pc.rank = 3 ∧ bb.rank = 3
  · rw [if_pos h3]
    refine ⟨by simp [h3], fun _ => rfl, fun h4 => ?_⟩
    exact absurd h4.1 (by omega)
  · rw [if_neg h3]
    by_cases h4 : pc.rank = 4 ∧ bb.rank = 4
    · rw [if_pos h4]
      exact ⟨by simp [h3, h4], fun h3' => absurd h3' h3, fun _ => rfl⟩
    · rw [if_neg h4]
      exact ⟨by simp [h3, h4], fun h3' => absurd h3' h3,
        fun h4' => absurd h4' h4⟩

end RandomCopyPaste
